import Mathlib

/-!
Verification development for the Bulgarian news bot (src/bot.py).

The pure core of the program is embedded shallowly:

* normalize, get_title_keywords, calc_similarity, score_entry,
  extract_item_id, is_usable_image are translated directly from the
  Python functions of the same names.
* The sqlite tables (posted, drafts) are modelled as lists of rows in a
  DB structure; already_posted, is_duplicate_story, mark_posted,
  save_draft, cmd_post, cmd_skip are translated from the corresponding
  functions, with the current time and the 48-hour cutoff passed in as
  explicit ISO-timestamp strings (Python compares such strings
  lexicographically, as Lean does on String).
* run_rss_once is split into the candidate-collection phase
  (collectEntry, collectFeed, collectAll), the stable descending sort
  (sortDesc, modelling Python list.sort with key=score and reverse=True,
  which is stable among equal keys), and the processing walk
  (processLoop).  The external collaborators (the generation service,
  the image fetch and the message delivery) are modelled as oracles: the
  generation service either returns the SKIP sentinel, returns a message,
  or raises (GenResult.fail covers both the missing-section ValueError
  and the language-check ValueError of generate_post); delivery is a
  boolean success flag covering both publish_to_channel and the
  editor-chat send.

Python specifics reflected in the model: Python str.lower and the
regex classes \w and \s are modelled for the character repertoire this
program actually handles (ASCII plus the basic Cyrillic block used by
all of its keyword lists); Python float division and the 0.6 literal in
calc_similarity are modelled over the rationals, which agrees with IEEE
doubles at the set sizes reachable here because the rounding error of a
double is many orders of magnitude below the 1/(5*n) gap separating a
ratio of small integers from 3/5.
-/

namespace NewsBot

/-- Python str.lower for the characters this program handles: ASCII letters
plus the basic Cyrillic uppercase range U+0410..U+042F, which maps to the
lowercase range by adding 0x20. -/
def pyLower (c : Char) : Char :=
  if 0x410 ≤ c.toNat ∧ c.toNat ≤ 0x42F then Char.ofNat (c.toNat + 0x20)
  else c.toLower

/-- Python regex word character (\w with re.UNICODE) for the repertoire in
use: ASCII alphanumerics, the underscore, and the Cyrillic block
U+0400..U+04FF. -/
def isWordChar (c : Char) : Bool :=
  c.isAlphanum || c = '_' || decide (0x400 ≤ c.toNat ∧ c.toNat ≤ 0x4FF)

/-- First pass of normalize: lower-case every character, then replace every
character that is neither a word character nor whitespace by a space; both
whitespace and punctuation end up as the space character, which the second
pass collapses. -/
def normPre (s : String) : List Char :=
  s.data.map (fun c => let l := pyLower c; if isWordChar l then l else ' ')

/-- Maximal space-free words of a character list, in order; models splitting
on whitespace runs. -/
def words : List Char → List (List Char)
  | [] => []
  | c :: cs =>
    if c = ' ' then words cs
    else
      match cs, words cs with
      | [], _ => [[c]]
      | c2 :: _, ws =>
        if c2 = ' ' then [c] :: ws
        else
          match ws with
          | [] => [[c]]
          | w :: rest => (c :: w) :: rest

/-- Join words with single spaces; models re.sub of whitespace runs to one
space followed by strip. -/
def joinWords : List (List Char) → List Char
  | [] => []
  | [w] => w
  | w :: ws => w ++ ' ' :: joinWords ws

/-- Character-list form of normalize from bot.py: lower-case, strip
punctuation to spaces, collapse whitespace runs, trim. -/
def normData (s : String) : List Char :=
  joinWords (words (normPre s))

/-- normalize from bot.py. -/
def normalize (s : String) : String :=
  String.mk (normData s)

/-- Python substring membership (needle in hay). -/
def strIn (needle hay : String) : Bool :=
  decide (needle.data <:+: hay.data)

/-- Lower-case a whole string the way Python str.lower does on the
repertoire in use (applied to each keyword before matching, as in
score_entry). -/
def pyLowerStr (s : String) : String :=
  String.mk (s.data.map pyLower)

/-- get_title_keywords from bot.py: the set of distinct words of the
normalized title that are longer than 2 characters. -/
def get_title_keywords (title : String) : Finset String :=
  (((words (normalize title).data).map String.mk).filter
    (fun w => w.length > 2)).toFinset

/-- calc_similarity from bot.py, over the rationals: 0 when either keyword
set is empty, otherwise intersection size over the smaller set size. -/
def calc_similarity (title1 title2 : String) : ℚ :=
  let set1 := get_title_keywords title1
  let set2 := get_title_keywords title2
  if set1 = ∅ ∨ set2 = ∅ then 0
  else ((set1 ∩ set2).card : ℚ) / (min set1.card set2.card : ℕ)

/-- KEYWORDS list from bot.py, transcribed verbatim (duplicates included,
they each contribute to the score because score_entry iterates the list). -/
def KEYWORDS : List String := [
  "Граждани за европейско развитие на България", "ГЕРБ", "Продължаваме промяната", "ПП",
  "Демократична България", "ДБ", "ПП-ДБ", "Българска социалистическа партия", "БСП",
  "Движение за права и свободи", "ДПС", "Има такъв народ", "ИТН", "Възраждане",
  "Български възход", "Левицата", "Атака", "ВМРО", "НФСБ", "Да, България", "ДСБ",
  "ЗНС", "ОЗ", "РЗБ", "КБ", "предсрочни избори", "парламентарни избори", "местни избори",
  "президентски избори", "коалиционно правителство", "служебен кабинет", "оставка",
  "вот на недоверие", "политическа криза", "нестабилност", "изборна умора",
  "Делян Пеевски", "Бойко Борисов", "Кирил Петков", "Асен Василев", "Христо Иванов",
  "Корнелия Нинова", "Слави Трифонов", "Костадин Костадинов", "Румен Радев",
  "санкции Магнитски", "корупция", "антикорупция", "КПКОНПИ", "съдебна реформа",
  "прокуратура", "главен прокурор", "ВСС", "олигархия", "задкулисие", "купуване на гласове",
  "изборни измами", "масови протести", "гражданско недоволство", "Шенген", "сухопътен Шенген",
  "мигрантски натиск", "нелегална миграция", "бежанци", "Европейски съюз", "ЕС",
  "Европейска комисия", "еврофондове", "План за възстановяване и устойчивост", "ПВУ",
  "еврозона", "въвеждане на еврото", "БНБ", "инфлация", "ръст на цените", "поскъпване",
  "държавен бюджет", "бюджетен дефицит", "данъчни промени", "ДДС", "минимална работна заплата",
  "пенсии", "социално напрежение", "енергийна криза", "високи цени на тока", "ВЕИ",
  "Маришки басейн", "АЕЦ Козлодуй", "ядрена енергетика", "климатични промени", "наводнения",
  "бедствено положение", "инфраструктурни щети", "катастрофи", "пътна безопасност",
  "магистрали", "БДЖ", "транспортна криза", "икономическа несигурност", "инвестиции",
  "ИТ сектор", "стартиращи компании", "недостиг на кадри", "пазар на труда", "стачки",
  "синдикати", "образование", "реформа в образованието", "PISA", "дигитализация",
  "електронно управление", "изкуствен интелект", "киберсигурност", "дезинформация",
  "фалшиви новини", "медийна среда", "здравеопазване", "здравна реформа", "НЗОК",
  "болници", "лекарства", "демографска криза", "емиграция", "раждаемост", "НАТО",
  "войната в Украйна", "подкрепа за Украйна", "санкции срещу Русия", "руско влияние",
  "протест", "митинг", "недоволство", "стачка", "бунт", "сблъсъци", "побой", "битка",
  "криза", "цени", "храна", "бензин", "горива", "сметки", "бедност", "оскъпяване",
  "училище", "университет", "образование", "студенти", "ученици", "преподаватели",
  "транспорт", "задръстване", "влак", "автобус", "пътна обстановка", "магистрала",
  "лична история", "трагедия", "съдба", "помощ", "дарение", "болест", "лечение",
  "арест", "полиция", "МВР", "акция", "разследване", "затвор", "престъпление",
  "корупция", "подкуп", "далавера", "злоупотреба", "кражба", "измама",
  "Запад", "САЩ", "Тръмп", "Путин", "Русия", "Украйна",
  "буря", "ураган", "вятър", "пожар", "наводнение"
]

/-- HOT_TERMS list from bot.py, transcribed verbatim. -/
def HOT_TERMS : List String := [
  "скандал", "шокиращо", "ексклузивно", "арест", "взрив", "убийство", "бомба",
  "извънредно", "атака", "кризисен", "санкции", "заплаха", "конфликт", "стачка",
  "недостиг", "поскъпване", "бедствие", "трагедия", "катастрофа", "разкритие",
  "мафия", "задкулисие", "олигарх", "преврат", "разследване", "спешно",
  "протест", "цени", "криза", "бой", "училище", "университет", "болница", "пари",
  "храна", "ток", "парно", "вода", "гориво", "заплати", "пенсии", "бедност"
]

/-- priority_boost list from score_entry in bot.py, transcribed verbatim. -/
def priority_boost : List String := [
  "протест", "арест", "корупция", "трагедия", "катастрофа", "криза", "цени",
  "храна", "поскъпване", "бий", "бой", "полиция", "мвр", "болница"
]

/-- One pass of score_entry: fold a term list over the accumulator, adding
the title weight on a normalized-title substring match, else the summary
weight on a normalized-summary substring match, else nothing.  Mirrors the
three for-loops of score_entry. -/
def scorePass (tNorm sNorm : String) (tw sw : Int) (terms : List String)
    (acc : Int) : Int :=
  terms.foldl
    (fun score term =>
      let low := pyLowerStr term
      if strIn low tNorm then score + tw
      else if strIn low sNorm then score + sw
      else score)
    acc

/-- score_entry from bot.py: priority terms 8/4, standard keywords 5/2, hot
terms 3/1, title checked before summary for each term. -/
def score_entry (title summary : String) : Int :=
  let tNorm := normalize title
  let sNorm := normalize summary
  scorePass tNorm sNorm 3 1 HOT_TERMS
    (scorePass tNorm sNorm 5 2 KEYWORDS
      (scorePass tNorm sNorm 8 4 priority_boost 0))

/-- A row of the posted table: item_id (primary key), posted_at ISO
timestamp, normalized title. -/
structure PostedRow where
  item_id : String
  posted_at : String
  title_norm : String
deriving DecidableEq, Repr

/-- A row of the drafts table. -/
structure Draft where
  id : Nat
  created_at : String
  text : String
  status : String
  image_url : String
deriving DecidableEq, Repr

/-- The sqlite database: the posted ledger, the drafts table and the
autoincrement counter for draft ids. -/
structure DB where
  posted : List PostedRow
  drafts : List Draft
  nextDraftId : Nat
deriving DecidableEq, Repr

/-- already_posted from bot.py: does a posted row with this item_id
exist. -/
def already_posted (db : DB) (item_id : String) : Bool :=
  db.posted.any (fun r => r.item_id = item_id)

/-- is_duplicate_story from bot.py: scan posted rows newer than the
48-hour cutoff (ISO strings compare lexicographically, so String < is the
SELECT posted_at > cutoff filter), skip empty titles, and report whether
some row's stored normalized title is similar to the new title at or above
the threshold. -/
def is_duplicate_story (db : DB) (twoDaysAgo : String) (new_title : String)
    (threshold : ℚ) : Bool :=
  db.posted.any (fun r =>
    decide (twoDaysAgo < r.posted_at) && !(r.title_norm = "") &&
      decide (threshold ≤ calc_similarity new_title r.title_norm))

/-- mark_posted from bot.py: INSERT OR REPLACE, i.e. any existing row with
this item_id is replaced by a fresh row carrying the current time and the
normalized title. -/
def mark_posted (db : DB) (item_id : String) (title : String) (now : String) :
    DB :=
  ⟨db.posted.filter (fun r => ¬ r.item_id = item_id) ++
      [⟨item_id, now, normalize title⟩],
    db.drafts, db.nextDraftId⟩

/-- save_draft from bot.py: append a draft row with the next autoincrement
id and return the new id alongside the database. -/
def save_draft (db : DB) (msg_html : String) (status : String)
    (image_url : String) (now : String) : DB × Nat :=
  (⟨db.posted,
      db.drafts ++ [⟨db.nextDraftId, now, msg_html, status, image_url⟩],
      db.nextDraftId + 1⟩,
    db.nextDraftId)

/-- Python str.strip: drop leading and trailing whitespace. -/
def pyStrip (s : String) : String :=
  String.mk (((s.data.dropWhile Char.isWhitespace).reverse.dropWhile
    Char.isWhitespace).reverse)

/-- Python or on strings used as an empty-string fallback chain. -/
def pyOr (a b : String) : String :=
  if a = "" then b else a

/-- is_usable_image from bot.py: reject empty urls, urls containing a
blocklisted substring, and .svg urls. -/
def is_usable_image (image_url : String) : Bool :=
  let u := pyStrip image_url
  if u = "" then false
  else
    let blocked : List String :=
      ["logo", "icon", "favicon", "placeholder", "sprite", "badge", "default"]
    let uLow := pyLowerStr u
    if blocked.any (fun k => strIn k uLow) then false
    else if uLow.data.reverse.take 4 = [ 'g', 'v', 's', '.' ] then false
    else true

/-- A feed entry as the collector reads it; a missing field is the empty
string, which is what the falsy-chaining in the Python code treats it as. -/
structure Entry where
  id : String
  guid : String
  link : String
  title : String
  summary : String
  description : String
deriving DecidableEq, Repr

/-- extract_item_id from bot.py: entry id, else guid, else stripped link,
else empty, stripped. -/
def extract_item_id (e : Entry) : String :=
  pyStrip (pyOr e.id (pyOr e.guid (pyStrip e.link)))

/-- A transient candidate, in the tuple order used by run_rss_once:
(score, source, title, summ, link, item_id). -/
structure Candidate where
  score : Int
  source : String
  title : String
  summ : String
  link : String
  item_id : String
deriving DecidableEq, Repr

/-- The per-entry body of the collection loop in run_rss_once: entries
whose derived id is empty or already seen are dropped before any duplicate
check; near-duplicate titles are dropped before scoring; the entry becomes
a candidate only when its score reaches MIN_SCORE. -/
def collectEntry (db : DB) (twoDaysAgo : String) (source : String)
    (minScore : Int) (e : Entry) : Option Candidate :=
  let title := e.title
  let summ := pyOr e.summary e.description
  let item_id := extract_item_id e
  if ¬ item_id = "" ∧ already_posted db item_id = false then
    if is_duplicate_story db twoDaysAgo title (3 / 5) then none
    else
      let score := score_entry title summ
      if minScore ≤ score then some ⟨score, source, title, summ, e.link, item_id⟩
      else none
  else none

/-- One feed's contribution to the candidate pool: the first PER_FEED_CAP
entries run through the collection body. -/
def collectFeed (db : DB) (twoDaysAgo : String) (source : String) (cap : Nat)
    (minScore : Int) (entries : List Entry) : List Candidate :=
  (entries.take cap).filterMap (collectEntry db twoDaysAgo source minScore)

/-- The whole scan over RSS_FEEDS: a feed whose fetch raised is modelled as
none and contributes zero candidates; the others contribute in feed order. -/
def collectAll (db : DB) (twoDaysAgo : String) (cap : Nat) (minScore : Int) :
    List (String × Option (List Entry)) → List Candidate
  | [] => []
  | (_, none) :: fs => collectAll db twoDaysAgo cap minScore fs
  | (src, some es) :: fs =>
      collectFeed db twoDaysAgo src cap minScore es ++
        collectAll db twoDaysAgo cap minScore fs

/-- Insert a candidate into a list keeping scores descending; an element
already in place stays before the inserted one exactly when its score is
strictly greater, so earlier-discovered candidates stay first among equal
scores. -/
def insertDesc (c : Candidate) : List Candidate → List Candidate
  | [] => [c]
  | d :: ds => if c.score < d.score then d :: insertDesc c ds else c :: d :: ds

/-- The stable descending sort performed by candidates.sort with the score
key and reverse=True; Python documents that sort as stable, and with
reverse=True equal-key elements keep their original order. -/
def sortDesc : List Candidate → List Candidate
  | [] => []
  | c :: cs => insertDesc c (sortDesc cs)

/-- Outcome of one generate_post call as the orchestrator sees it: the SKIP
sentinel, a generated message, or a raised ValueError (missing
HEADLINE/SUMMARY section, or the is_bulgarian_enough check failing). -/
inductive GenResult
  | skip
  | ok (msg : String)
  | fail
deriving DecidableEq, Repr

/-- The external collaborators and configuration of one run: the generation
service, the image fetch (the raw fetch_article_image result), delivery
success (publish_to_channel in auto mode, the editor-chat send in manual
mode), the AUTO_POST flag, the MAX_PER_RUN quota and the current time. -/
structure RunParams where
  gen : Candidate → GenResult
  image : Candidate → String
  sendOk : Candidate → Bool
  autoPost : Bool
  maxPerRun : Nat
  now : String

/-- The image value actually attached to the post: the fetched url, blanked
when the usability filter rejects it (run_rss_once does this right after
fetch_article_image). -/
def resolveImage (raw : String) : String :=
  if ¬ raw = "" ∧ is_usable_image raw = false then "" else raw

/-- The processing walk of run_rss_once over the ranked candidates: stop at
the quota; on SKIP mark seen and continue; on a generation error change
nothing and continue; otherwise save the draft (after publishing in auto
mode, before notifying the editor in manual mode), and only when delivery
succeeded mark seen and count the candidate — a failed delivery in manual
mode leaves the saved pending draft behind but reaches neither mark_posted
nor the counter increment, and in auto mode fails before save_draft. -/
def processLoop (p : RunParams) : DB → Nat → List Candidate → DB × Nat
  | db, count, [] => (db, count)
  | db, count, c :: rest =>
    if p.maxPerRun ≤ count then (db, count)
    else
      match p.gen c with
      | GenResult.skip =>
          processLoop p (mark_posted db c.item_id c.title p.now) count rest
      | GenResult.fail => processLoop p db count rest
      | GenResult.ok msg =>
          let img := resolveImage (p.image c)
          if p.sendOk c then
            let db1 := (save_draft db msg
              (if p.autoPost then "posted" else "pending") img p.now).1
            processLoop p (mark_posted db1 c.item_id c.title p.now)
              (count + 1) rest
          else
            let db1 := if p.autoPost then db
              else (save_draft db msg "pending" img p.now).1
            processLoop p db1 count rest

/-- run_rss_once from bot.py: collect candidates from every feed, sort by
score descending (stable), and walk at most the first 20 of the ranked
list under the per-run quota.  Returns the final database and the number
of candidates actually published or drafted. -/
def run_rss_once (p : RunParams) (db : DB) (twoDaysAgo : String) (cap : Nat)
    (minScore : Int) (feeds : List (String × Option (List Entry))) :
    DB × Nat :=
  processLoop p db 0
    ((sortDesc (collectAll db twoDaysAgo cap minScore feeds)).take 20)

/-- cmd_post from bot.py: look up the draft by id with status pending; when
found, publish it and set its status to posted; otherwise do nothing.  The
returned flag records whether a publish call to the channel was made. -/
def cmd_post (db : DB) (did : Nat) : DB × Bool :=
  match db.drafts.find? (fun d => d.id = did && d.status = "pending") with
  | none => (db, false)
  | some _ =>
      (⟨db.posted,
          db.drafts.map (fun d =>
            if d.id = did then ⟨d.id, d.created_at, d.text, "posted", d.image_url⟩
            else d),
          db.nextDraftId⟩,
        true)

/-- cmd_skip from bot.py: UPDATE drafts SET status equal skipped WHERE
id equals did, with no status guard and no publish call. -/
def cmd_skip (db : DB) (did : Nat) : DB :=
  ⟨db.posted,
    db.drafts.map (fun d =>
      if d.id = did then ⟨d.id, d.created_at, d.text, "skipped", d.image_url⟩
      else d),
    db.nextDraftId⟩

/-! ### Lemmas about word splitting and joining -/

theorem words_ne_nil (c : Char) (cs : List Char) (h : ¬ c = ' ') :
    words (c :: cs) ≠ [] := by
  cases cs with
  | nil => simp [words, h]
  | cons c2 cs2 =>
    simp only [words, h, if_false]
    split
    · simp
    · split <;> simp

theorem words_space (cs : List Char) : words (' ' :: cs) = words cs := by
  simp [words]

theorem words_single (c : Char) (h : ¬ c = ' ') : words [c] = [[c]] := by
  simp [words, h]

theorem words_cons_space (c : Char) (cs : List Char) (h : ¬ c = ' ') :
    words (c :: ' ' :: cs) = [c] :: words cs := by
  simp [words, h]

theorem words_cons_cons (c c2 : Char) (cs : List Char) (w : List Char)
    (rest : List (List Char)) (h : ¬ c = ' ') (h2 : ¬ c2 = ' ')
    (hw : words (c2 :: cs) = w :: rest) :
    words (c :: c2 :: cs) = (c :: w) :: rest := by
  rw [words.eq_def]
  simp only [h, if_false, hw]
  simp [h2]

theorem words_append_space :
    ∀ a b : List Char, words (a ++ ' ' :: b) = words a ++ words b
  | [], b => by simpa using words_space b
  | c :: cs, b => by
    by_cases hc : c = ' '
    · subst hc
      rw [List.cons_append, words_space, words_space, words_append_space cs b]
    · cases cs with
      | nil =>
        rw [List.singleton_append, words_cons_space c b hc,
          words_single c hc, List.singleton_append]
      | cons c2 cs2 =>
        by_cases hc2 : c2 = ' '
        · subst hc2
          rw [List.cons_append, List.cons_append, words_cons_space c _ hc,
            words_append_space cs2 b, words_cons_space c cs2 hc,
            List.cons_append]
        · have ih := words_append_space (c2 :: cs2) b
          cases hw : words (c2 :: cs2) with
          | nil => exact absurd hw (words_ne_nil c2 cs2 hc2)
          | cons w rest =>
            rw [hw] at ih
            rw [List.cons_append, List.cons_append,
              words_cons_cons c c2 (cs2 ++ ' ' :: b) w (rest ++ words b)
                hc hc2 ih,
              words_cons_cons c c2 cs2 w rest hc hc2 hw, List.cons_append]

theorem joinWords_cons_of_ne_nil (w : List Char) (ws : List (List Char))
    (h : ws ≠ []) : joinWords (w :: ws) = w ++ ' ' :: joinWords ws := by
  cases ws with
  | nil => exact absurd rfl h
  | cons x xs => rfl

theorem joinWords_append_left :
    ∀ ws1 ws2 : List (List Char), joinWords ws1 <+: joinWords (ws1 ++ ws2)
  | [], ws2 => List.nil_prefix
  | [w], ws2 => by
    cases ws2 with
    | nil => simp
    | cons x xs =>
      rw [List.singleton_append,
        joinWords_cons_of_ne_nil w (x :: xs) (by simp)]
      exact ⟨' ' :: joinWords (x :: xs), rfl⟩
  | w :: v :: ws, ws2 => by
    have ih := joinWords_append_left (v :: ws) ws2
    obtain ⟨t, ht⟩ := ih
    rw [List.cons_append,
      joinWords_cons_of_ne_nil w ((v :: ws) ++ ws2) (by simp),
      joinWords_cons_of_ne_nil w (v :: ws) (by simp), ← ht]
    exact ⟨t, by simp⟩

theorem normPre_append (s t : String) :
    normPre (s ++ t) = normPre s ++ normPre t := by
  simp [normPre, String.data_append]

theorem normData_infix_append_space (s t : String) :
    normData s <:+: normData (s ++ " " ++ t) := by
  have h1 : normPre (s ++ " " ++ t) = normPre s ++ ' ' :: normPre t := by
    rw [normPre_append, normPre_append]
    have : normPre " " = [' '] := by decide
    simp [this]
  have h2 : normData (s ++ " " ++ t) =
      joinWords (words (normPre s) ++ words (normPre t)) := by
    rw [normData, h1, words_append_space]
  rw [h2, normData]
  obtain ⟨u, hu⟩ := joinWords_append_left (words (normPre s)) (words (normPre t))
  exact ⟨[], u, by simpa using hu⟩

theorem strIn_mono_append_space (x s t : String)
    (h : strIn x (normalize s) = true) :
    strIn x (normalize (s ++ " " ++ t)) = true := by
  have h1 : x.data <:+: normData s := of_decide_eq_true h
  have h2 : normData s <:+: normData (s ++ " " ++ t) :=
    normData_infix_append_space s t
  exact decide_eq_true (h1.trans h2)

/-! ### Lemmas about the scorer -/

/-- The per-term contribution of one scoring pass: the title weight on a
title match, else the summary weight on a summary match, else nothing. -/
def termContrib (tNorm sNorm : String) (tw sw : Int) (term : String) : Int :=
  if strIn (pyLowerStr term) tNorm then tw
  else if strIn (pyLowerStr term) sNorm then sw
  else 0

theorem scorePass_eq_sum (tNorm sNorm : String) (tw sw : Int) :
    ∀ (terms : List String) (acc : Int),
      scorePass tNorm sNorm tw sw terms acc =
        acc + (terms.map (termContrib tNorm sNorm tw sw)).sum
  | [], acc => by simp [scorePass]
  | t :: ts, acc => by
    have ih1 := scorePass_eq_sum tNorm sNorm tw sw ts (acc + tw)
    have ih2 := scorePass_eq_sum tNorm sNorm tw sw ts (acc + sw)
    have ih3 := scorePass_eq_sum tNorm sNorm tw sw ts acc
    simp only [scorePass, List.foldl_cons] at *
    cases h1 : strIn (pyLowerStr t) tNorm with
    | true =>
      simp [h1, termContrib, ih1]
      try ring
    | false =>
      cases h2 : strIn (pyLowerStr t) sNorm with
      | true =>
        simp [h1, h2, termContrib, ih2]
        try ring
      | false =>
        simp [h1, h2, termContrib, ih3]
        try ring

theorem termContrib_nonneg (tNorm sNorm : String) (tw sw : Int)
    (htw : 0 ≤ tw) (hsw : 0 ≤ sw) (term : String) :
    0 ≤ termContrib tNorm sNorm tw sw term := by
  unfold termContrib
  split
  · exact htw
  · split
    · exact hsw
    · exact le_refl 0

theorem termContrib_mono (tNorm tNorm' sNorm : String) (tw sw : Int)
    (hsw : 0 ≤ sw) (hws : sw ≤ tw)
    (hmono : ∀ x, strIn x tNorm = true → strIn x tNorm' = true)
    (term : String) :
    termContrib tNorm sNorm tw sw term ≤ termContrib tNorm' sNorm tw sw term := by
  unfold termContrib
  by_cases h1 : strIn (pyLowerStr term) tNorm
  · rw [if_pos h1, if_pos (hmono _ h1)]
  · rw [if_neg h1]
    by_cases h1' : strIn (pyLowerStr term) tNorm'
    · rw [if_pos h1']
      split
      · exact hws
      · exact le_trans hsw hws
    · rw [if_neg h1']

theorem score_entry_eq_sum (title summary : String) :
    score_entry title summary =
      (priority_boost.map
        (termContrib (normalize title) (normalize summary) 8 4)).sum
      + (KEYWORDS.map
        (termContrib (normalize title) (normalize summary) 5 2)).sum
      + (HOT_TERMS.map
        (termContrib (normalize title) (normalize summary) 3 1)).sum := by
  unfold score_entry
  rw [scorePass_eq_sum, scorePass_eq_sum, scorePass_eq_sum]
  ring

/-- Claim C4: score_entry is a non-negative integer equal to the sum, over
the three term sets, of per-term contributions; a priority term contributes
8 on a normalized-title match and otherwise 4 on a normalized-summary
match, a standard term 5/2, a hot term 3/1; the title is checked first and
a title match contributes exactly the title weight, so no term scores in
both fields. -/
theorem c4_score_entry_sum (title summary : String) :
    0 ≤ score_entry title summary ∧
    score_entry title summary =
      (priority_boost.map
        (termContrib (normalize title) (normalize summary) 8 4)).sum
      + (KEYWORDS.map
        (termContrib (normalize title) (normalize summary) 5 2)).sum
      + (HOT_TERMS.map
        (termContrib (normalize title) (normalize summary) 3 1)).sum ∧
    (∀ tw sw term, strIn (pyLowerStr term) (normalize title) = true →
      termContrib (normalize title) (normalize summary) tw sw term = tw) ∧
    (∀ tw sw term, strIn (pyLowerStr term) (normalize title) = false →
      strIn (pyLowerStr term) (normalize summary) = true →
      termContrib (normalize title) (normalize summary) tw sw term = sw) := by
  have hsum : ∀ (terms : List String) (tw sw : Int), 0 ≤ tw → 0 ≤ sw →
      (0:Int) ≤ (terms.map
        (termContrib (normalize title) (normalize summary) tw sw)).sum := by
    intro terms tw sw htw hsw
    apply List.sum_nonneg
    intro x hx
    obtain ⟨term, _, rfl⟩ := List.mem_map.1 hx
    exact termContrib_nonneg _ _ _ _ htw hsw term
  refine ⟨?_, score_entry_eq_sum title summary, ?_, ?_⟩
  · rw [score_entry_eq_sum]
    have h1 := hsum priority_boost 8 4 (by norm_num) (by norm_num)
    have h2 := hsum KEYWORDS 5 2 (by norm_num) (by norm_num)
    have h3 := hsum HOT_TERMS 3 1 (by norm_num) (by norm_num)
    linarith
  · intro tw sw term h
    simp [termContrib, h]
  · intro tw sw term h1 h2
    simp [termContrib, h1, h2]

/-- Claim C8: appending a matching priority term to the title can only
increase or maintain the score, for any title and summary. -/
theorem c8_score_monotone (title summary pb : String)
    (h : pb ∈ priority_boost) :
    score_entry title summary ≤ score_entry (title ++ " " ++ pb) summary := by
  have hmono : ∀ x, strIn x (normalize title) = true →
      strIn x (normalize (title ++ " " ++ pb)) = true := by
    intro x hx
    exact strIn_mono_append_space x title pb hx
  rw [score_entry_eq_sum, score_entry_eq_sum]
  have hpass : ∀ (terms : List String) (tw sw : Int), 0 ≤ sw → sw ≤ tw →
      (terms.map (termContrib (normalize title) (normalize summary) tw sw)).sum
        ≤ (terms.map (termContrib (normalize (title ++ " " ++ pb))
            (normalize summary) tw sw)).sum := by
    intro terms tw sw hsw hws
    apply List.sum_le_sum
    intro term _
    exact termContrib_mono _ _ _ tw sw hsw hws hmono term
  have h1 := hpass priority_boost 8 4 (by norm_num) (by norm_num)
  have h2 := hpass KEYWORDS 5 2 (by norm_num) (by norm_num)
  have h3 := hpass HOT_TERMS 3 1 (by norm_num) (by norm_num)
  linarith

/-- Witness for C8 at a concrete input. -/
theorem c8_score_monotone_witness :
    "протест" ∈ priority_boost ∧
    score_entry "Новини от деня" "" ≤
      score_entry ("Новини от деня" ++ " " ++ "протест") "" :=
  ⟨by decide, c8_score_monotone "Новини от деня" "" "протест" (by decide)⟩

/-- Claim C10: calc_similarity is symmetric in its two arguments. -/
theorem c10_calc_similarity_comm (a b : String) :
    calc_similarity a b = calc_similarity b a := by
  unfold calc_similarity
  dsimp only
  rw [Finset.inter_comm, min_comm]
  exact if_congr or_comm rfl rfl

/-! ### Lemmas about similarity bounds and the duplicate verdict -/

theorem get_title_keywords_empty : get_title_keywords "" = ∅ := by decide

theorem calc_similarity_nonneg (t1 t2 : String) :
    0 ≤ calc_similarity t1 t2 := by
  unfold calc_similarity
  dsimp only
  split
  · exact le_refl 0
  · positivity

theorem calc_similarity_le_one (t1 t2 : String) :
    calc_similarity t1 t2 ≤ 1 := by
  unfold calc_similarity
  dsimp only
  split
  · exact zero_le_one
  · rename_i hne
    push_neg at hne
    obtain ⟨h1, h2⟩ := hne
    have hpos1 : 0 < (get_title_keywords t1).card :=
      Finset.card_pos.2 (Finset.nonempty_iff_ne_empty.2 h1)
    have hpos2 : 0 < (get_title_keywords t2).card :=
      Finset.card_pos.2 (Finset.nonempty_iff_ne_empty.2 h2)
    have hminpos : 0 < min (get_title_keywords t1).card
        (get_title_keywords t2).card := lt_min hpos1 hpos2
    rw [div_le_one (by exact_mod_cast hminpos)]
    exact_mod_cast Nat.le_min.2
      ⟨Finset.card_le_card Finset.inter_subset_left,
       Finset.card_le_card Finset.inter_subset_right⟩

theorem calc_similarity_empty_right (t : String) :
    calc_similarity t "" = 0 := by
  unfold calc_similarity
  dsimp only
  rw [if_pos (Or.inr get_title_keywords_empty)]

/-- Claim C5: calc_similarity is the intersection size over the smaller
keyword-set size, 0 when either set is empty, always in the unit interval;
and the duplicate verdict of is_duplicate_story holds exactly when some
title posted after the 48-hour cutoff reaches similarity 3/5 (the check is
boundary inclusive, and rows with an empty stored title cannot reach the
threshold since their similarity is 0). -/
theorem c5_similarity_spec (db : DB) (twoDaysAgo t1 t2 : String) :
    (calc_similarity t1 t2 =
      if get_title_keywords t1 = ∅ ∨ get_title_keywords t2 = ∅ then 0
      else ((get_title_keywords t1 ∩ get_title_keywords t2).card : ℚ) /
        (min (get_title_keywords t1).card (get_title_keywords t2).card : ℕ)) ∧
    0 ≤ calc_similarity t1 t2 ∧ calc_similarity t1 t2 ≤ 1 ∧
    (is_duplicate_story db twoDaysAgo t1 (3 / 5) = true ↔
      ∃ r ∈ db.posted, twoDaysAgo < r.posted_at ∧
        3 / 5 ≤ calc_similarity t1 r.title_norm) := by
  refine ⟨rfl, calc_similarity_nonneg t1 t2, calc_similarity_le_one t1 t2, ?_⟩
  unfold is_duplicate_story
  rw [List.any_eq_true]
  constructor
  · rintro ⟨r, hr, hpred⟩
    simp only [Bool.and_eq_true, decide_eq_true_eq, Bool.not_eq_true',
      decide_eq_false_iff_not] at hpred
    exact ⟨r, hr, hpred.1.1, hpred.2⟩
  · rintro ⟨r, hr, hlt, hsim⟩
    refine ⟨r, hr, ?_⟩
    have hne : ¬ r.title_norm = "" := by
      intro he
      rw [he, calc_similarity_empty_right] at hsim
      norm_num at hsim
    simp only [Bool.and_eq_true, decide_eq_true_eq, Bool.not_eq_true',
      decide_eq_false_iff_not]
    exact ⟨⟨hlt, by simpa using hne⟩, hsim⟩

/-! ### Lemmas about mark_posted and the drafts table -/

theorem mark_posted_filter_self (db : DB) (id title now : String) :
    (mark_posted db id title now).posted.filter (fun r => r.item_id = id) =
      [⟨id, now, normalize title⟩] := by
  unfold mark_posted
  rw [List.filter_append, List.filter_filter]
  have h1 : db.posted.filter
      (fun r => decide (r.item_id = id) && decide (¬ r.item_id = id)) = [] := by
    rw [List.filter_eq_nil_iff]
    intro r _
    simp only [Bool.and_eq_true, decide_eq_true_eq]
    rintro ⟨h, hn⟩
    exact hn h
  rw [h1]
  simp

theorem mark_posted_filter_ne (db : DB) (id title now : String) :
    (mark_posted db id title now).posted.filter (fun r => ¬ r.item_id = id) =
      db.posted.filter (fun r => ¬ r.item_id = id) := by
  unfold mark_posted
  rw [List.filter_append, List.filter_filter]
  simp

theorem already_posted_mark_posted_self (db : DB) (id title now : String) :
    already_posted (mark_posted db id title now) id = true := by
  unfold already_posted mark_posted
  simp

/-- Counterexample to claim C3 as stated: the item "x" is already present
in the posted table, yet a second mark_posted call replaces its row,
changing both posted_at and title_norm. -/
def dbC3 : DB :=
  ⟨[⟨"x", "2024-01-01T00:00:00Z", "старо заглавие"⟩], [], 1⟩

/-- Counterexample for C3: a subsequent mark_posted on an already present
stable identifier does not leave the existing row unchanged — INSERT OR
REPLACE overwrites posted_at and title_norm. -/
theorem c3_counterexample :
    already_posted dbC3 "x" = true ∧
    (mark_posted dbC3 "x" "Ново заглавие" "2024-01-02T00:00:00Z").posted =
      [⟨"x", "2024-01-02T00:00:00Z", "ново заглавие"⟩] ∧
    ¬ (mark_posted dbC3 "x" "Ново заглавие" "2024-01-02T00:00:00Z").posted =
      dbC3.posted := by
  refine ⟨by decide, by decide, by decide⟩

/-- Claim C3, amended: for a stable identifier already present in the
posted table, a subsequent mark_posted call replaces the row — afterwards
exactly the single row with the new posted_at and the new normalized title
remains for that identifier — while rows of other identifiers are
untouched; the other operations (save_draft, cmd_post, cmd_skip) never
touch the posted table. -/
theorem c3_amended (db : DB) (id title now : String)
    (h : already_posted db id = true) :
    (mark_posted db id title now).posted.filter (fun r => r.item_id = id) =
      [⟨id, now, normalize title⟩] ∧
    (mark_posted db id title now).posted.filter (fun r => ¬ r.item_id = id) =
      db.posted.filter (fun r => ¬ r.item_id = id) ∧
    (∀ msg st img n2, (save_draft db msg st img n2).1.posted = db.posted) ∧
    (∀ did, (cmd_post db did).1.posted = db.posted) ∧
    (∀ did, (cmd_skip db did).posted = db.posted) := by
  refine ⟨mark_posted_filter_self db id title now,
    mark_posted_filter_ne db id title now,
    fun msg st img n2 => rfl, fun did => ?_, fun did => rfl⟩
  unfold cmd_post
  split <;> rfl

/-- Witness for C3 amended at a concrete database. -/
theorem c3_amended_witness :
    already_posted dbC3 "x" = true ∧
    (mark_posted dbC3 "x" "друго" "2024-01-03T00:00:00Z").posted.filter
      (fun r => r.item_id = "x") =
      [⟨"x", "2024-01-03T00:00:00Z", normalize "друго"⟩] :=
  ⟨by decide,
    (c3_amended dbC3 "x" "друго" "2024-01-03T00:00:00Z" (by decide)).1⟩

/-- Claim C6: recording the same identifier twice leaves exactly one posted
row for it, and has_seen (already_posted) answers true immediately after
the first call. -/
theorem c6_record_idempotent (db : DB) (id title1 title2 now1 now2 : String) :
    ((mark_posted (mark_posted db id title1 now1) id title2 now2).posted.filter
      (fun r => r.item_id = id)).length = 1 ∧
    already_posted (mark_posted db id title1 now1) id = true := by
  constructor
  · rw [mark_posted_filter_self]
    rfl
  · exact already_posted_mark_posted_self db id title1 now1

/-- Counterexample database for C2: a single draft already in the terminal
posted state. -/
def dbC2 : DB :=
  ⟨[], [⟨1, "2024-01-01T00:00:00Z", "текст", "posted", "img"⟩], 2⟩

/-- Counterexample for C2: cmd_skip carries no pending-status guard, so
skipping an already posted draft overwrites its terminal status with
skipped — the reject operation is not a no-op on a non-pending draft. -/
theorem c2_counterexample :
    dbC2.drafts = [⟨1, "2024-01-01T00:00:00Z", "текст", "posted", "img"⟩] ∧
    (cmd_skip dbC2 1).drafts =
      [⟨1, "2024-01-01T00:00:00Z", "текст", "skipped", "img"⟩] ∧
    ¬ (cmd_skip dbC2 1).drafts = dbC2.drafts := by
  refine ⟨by decide, by decide, by decide⟩

/-- Claim C2, amended: approving a draft that is not pending is a complete
no-op (no state change and no publish call); rejecting never changes a
draft's id, creation time, text or image and never publishes, and
rejecting an already skipped draft is a no-op — but rejecting a posted
draft is not a no-op, it overwrites the status with skipped. -/
theorem c2_amended (db : DB) (did : Nat) :
    ((∀ d ∈ db.drafts, d.id = did → ¬ d.status = "pending") →
      cmd_post db did = (db, false)) ∧
    ((cmd_skip db did).drafts.map
        (fun d => (d.id, d.created_at, d.text, d.image_url)) =
      db.drafts.map (fun d => (d.id, d.created_at, d.text, d.image_url))) ∧
    ((∀ d ∈ db.drafts, d.id = did → d.status = "skipped") →
      cmd_skip db did = db) := by
  refine ⟨?_, ?_, ?_⟩
  · intro h
    have hf : db.drafts.find? (fun d => d.id = did && d.status = "pending") =
        none := by
      rw [List.find?_eq_none]
      intro d hd
      simp only [Bool.and_eq_true, decide_eq_true_eq, not_and]
      exact h d hd
    unfold cmd_post
    rw [hf]
  · unfold cmd_skip
    rw [List.map_map]
    apply List.map_congr_left
    intro d _
    by_cases hid : d.id = did <;> simp [hid]
  · intro h
    rcases db with ⟨p, dr, n⟩
    unfold cmd_skip
    simp only [DB.mk.injEq, true_and, and_true]
    conv_rhs => rw [← List.map_id dr]
    apply List.map_congr_left
    intro d hd
    by_cases hid : d.id = did
    · have hst := h d hd hid
      rcases d with ⟨di, dc, dt, ds, dimg⟩
      simp_all
    · simp [hid]

/-- Witness for C2 amended: approve is a no-op on the posted-only database,
and a second reject after a reject changes nothing. -/
theorem c2_amended_witness :
    (∀ d ∈ dbC2.drafts, d.id = 1 → ¬ d.status = "pending") ∧
    cmd_post dbC2 1 = (dbC2, false) ∧
    cmd_skip (cmd_skip dbC2 1) 1 = cmd_skip dbC2 1 :=
  ⟨by decide, (c2_amended dbC2 1).1 (by decide),
    (c2_amended (cmd_skip dbC2 1) 1).2.2 (by decide)⟩

/-! ### Lemmas about the ranking sort -/

theorem insertDesc_perm (c : Candidate) :
    ∀ l, (insertDesc c l).Perm (c :: l)
  | [] => List.Perm.refl _
  | d :: ds => by
    unfold insertDesc
    split
    · exact ((insertDesc_perm c ds).cons d).trans (List.Perm.swap c d ds)
    · exact List.Perm.refl _

theorem sortDesc_perm : ∀ l, (sortDesc l).Perm l
  | [] => List.Perm.refl _
  | c :: cs => (insertDesc_perm c (sortDesc cs)).trans ((sortDesc_perm cs).cons c)

theorem insertDesc_pairwise (c : Candidate) :
    ∀ l, l.Pairwise (fun a b => b.score ≤ a.score) →
      (insertDesc c l).Pairwise (fun a b => b.score ≤ a.score)
  | [], _ => List.pairwise_singleton _ c
  | d :: ds, hl => by
    obtain ⟨hd, hds⟩ := List.pairwise_cons.1 hl
    unfold insertDesc
    split
    · rename_i hlt
      refine List.pairwise_cons.2 ⟨?_, insertDesc_pairwise c ds hds⟩
      intro x hx
      rcases List.mem_cons.1 ((insertDesc_perm c ds).mem_iff.1 hx) with hxc | hxd
      · subst hxc; exact le_of_lt hlt
      · exact hd x hxd
    · rename_i hge
      refine List.pairwise_cons.2 ⟨?_, hl⟩
      intro x hx
      rcases List.mem_cons.1 hx with hxd | hxds
      · subst hxd; exact not_lt.1 hge
      · exact le_trans (hd x hxds) (not_lt.1 hge)

theorem sortDesc_pairwise :
    ∀ l, (sortDesc l).Pairwise (fun a b => b.score ≤ a.score)
  | [] => List.Pairwise.nil
  | c :: cs => insertDesc_pairwise c (sortDesc cs) (sortDesc_pairwise cs)

theorem insertDesc_filter_pos (c : Candidate) (sc : Int) (h : c.score = sc) :
    ∀ l, (insertDesc c l).filter (fun x => x.score = sc) =
      c :: l.filter (fun x => x.score = sc)
  | [] => by simp [insertDesc, h]
  | d :: ds => by
    unfold insertDesc
    split
    · rename_i hlt
      have hd : ¬ d.score = sc := by
        intro hds
        rw [h] at hlt
        rw [hds] at hlt
        exact lt_irrefl sc hlt
      simp [List.filter_cons, hd, insertDesc_filter_pos c sc h ds]
    · simp [List.filter_cons, h]

theorem insertDesc_filter_neg (c : Candidate) (sc : Int) (h : ¬ c.score = sc) :
    ∀ l, (insertDesc c l).filter (fun x => x.score = sc) =
      l.filter (fun x => x.score = sc)
  | [] => by simp [insertDesc, h]
  | d :: ds => by
    unfold insertDesc
    split
    · simp only [List.filter_cons, insertDesc_filter_neg c sc h ds]
    · simp [List.filter_cons, h]

theorem sortDesc_filter (sc : Int) :
    ∀ l, (sortDesc l).filter (fun x => x.score = sc) =
      l.filter (fun x => x.score = sc)
  | [] => rfl
  | c :: cs => by
    unfold sortDesc
    by_cases h : c.score = sc
    · rw [insertDesc_filter_pos c sc h, sortDesc_filter sc cs]
      simp [List.filter_cons, h]
    · rw [insertDesc_filter_neg c sc h, sortDesc_filter sc cs]
      simp [List.filter_cons, h]

/-- The concrete ranking-stability example of the claim: scores 10, 10, 5,
discovered in the order C, A, B. -/
def candC : Candidate := ⟨10, "C", "заглавие C", "", "", "idC"⟩

/-- Second concrete candidate of the stability example. -/
def candA : Candidate := ⟨10, "A", "заглавие A", "", "", "idA"⟩

/-- Third concrete candidate of the stability example. -/
def candB : Candidate := ⟨5, "B", "заглавие B", "", "", "idB"⟩

/-! ### Lemmas about the processing walk -/

theorem processLoop_stop (p : RunParams) (db : DB) (count : Nat)
    (h : p.maxPerRun ≤ count) :
    ∀ l, processLoop p db count l = (db, count) := by
  intro l
  cases l with
  | nil => rfl
  | cons c rest => simp only [processLoop, if_pos h]

theorem processLoop_count_le (p : RunParams) :
    ∀ (cands : List Candidate) (db : DB) (count : Nat),
      count ≤ p.maxPerRun → (processLoop p db count cands).2 ≤ p.maxPerRun := by
  intro cands
  induction cands with
  | nil => intro db count h; exact h
  | cons c rest ih =>
    intro db count h
    simp only [processLoop]
    split
    · exact h
    · rename_i hlt
      split
      · exact ih _ count h
      · exact ih _ count h
      · split
        · exact ih _ (count + 1) (by omega)
        · exact ih _ count h

theorem processLoop_posted_congr (p : RunParams) :
    ∀ (cands : List Candidate) (db1 db2 : DB) (count : Nat),
      db1.posted = db2.posted →
      (processLoop p db1 count cands).1.posted =
        (processLoop p db2 count cands).1.posted ∧
      (processLoop p db1 count cands).2 = (processLoop p db2 count cands).2 := by
  intro cands
  induction cands with
  | nil => intro db1 db2 count h; exact ⟨h, rfl⟩
  | cons c rest ih =>
    intro db1 db2 count h
    simp only [processLoop]
    split
    · exact ⟨h, rfl⟩
    · have hmark : ∀ (d1 d2 : DB), d1.posted = d2.posted →
          (mark_posted d1 c.item_id c.title p.now).posted =
          (mark_posted d2 c.item_id c.title p.now).posted := by
        intro d1 d2 hd
        unfold mark_posted
        rw [hd]
      split
      · exact ih _ _ count (hmark db1 db2 h)
      · exact ih _ _ count h
      · split
        · exact ih _ _ (count + 1) (hmark _ _ (by simpa [save_draft] using h))
        · by_cases hap : p.autoPost
          · simp only [hap, if_true]
            exact ih _ _ count h
          · simp only [hap, if_false]
            exact ih _ _ count (by simpa [save_draft] using h)

/-- Claim C7: the pooled candidates are ranked by score descending with a
stable tie-break (the subsequence at any fixed score equals the discovery
subsequence, and the concrete 10/10/5 example discovered as C, A, B ranks
as C, A, B), the ranked list is a permutation of the pool, the walk of
run_rss_once consults at most the first 20 ranked candidates, and the
number of published or drafted candidates never exceeds the per-run
quota. -/
theorem c7_ranking_spec (l : List Candidate) (sc : Int) (p : RunParams)
    (db : DB) (twoDaysAgo : String) (cap : Nat) (minScore : Int)
    (feeds : List (String × Option (List Entry))) :
    (sortDesc l).Pairwise (fun a b => b.score ≤ a.score) ∧
    (sortDesc l).Perm l ∧
    (sortDesc l).filter (fun x => x.score = sc) =
      l.filter (fun x => x.score = sc) ∧
    sortDesc [candC, candA, candB] = [candC, candA, candB] ∧
    run_rss_once p db twoDaysAgo cap minScore feeds =
      processLoop p db 0
        ((sortDesc (collectAll db twoDaysAgo cap minScore feeds)).take 20) ∧
    ((sortDesc (collectAll db twoDaysAgo cap minScore feeds)).take 20).length
      ≤ 20 ∧
    (run_rss_once p db twoDaysAgo cap minScore feeds).2 ≤ p.maxPerRun := by
  refine ⟨sortDesc_pairwise l, sortDesc_perm l, sortDesc_filter sc l,
    by decide, rfl, ?_, ?_⟩
  · exact le_trans (List.length_take_le 20 _) (le_refl 20)
  · exact processLoop_count_le p _ db 0 (Nat.zero_le _)

/-! ### The recoverable-failure path of the processing walk -/

/-- A candidate's processing raises a recoverable error: either the
generation call raised (missing section or failed language check), or
generation succeeded and the delivery raised. -/
def recoverableFailure (p : RunParams) (c : Candidate) : Prop :=
  p.gen c = GenResult.fail ∨
    ∃ msg, p.gen c = GenResult.ok msg ∧ p.sendOk c = false

/-- Concrete candidate for the C1 counterexample. -/
def c0 : Candidate := ⟨10, "src", "Заглавие за тест", "", "", "id0"⟩

/-- Empty database for the C1 counterexample. -/
def db0 : DB := ⟨[], [], 1⟩

/-- Run parameters whose generation service always raises. -/
def pFail : RunParams :=
  ⟨fun _ => GenResult.fail, fun _ => "", fun _ => true, false, 1,
    "2024-01-02T00:00:00Z"⟩

/-- Run parameters whose generation succeeds but whose delivery fails. -/
def pSendFail : RunParams :=
  ⟨fun _ => GenResult.ok "текст на поста", fun _ => "", fun _ => false,
    false, 1, "2024-01-02T00:00:00Z"⟩

/-- Counterexample for C1: a candidate whose generation raises, and a
candidate whose delivery fails, are both left unrecorded in the posted
ledger after the walk — contrary to the claim that the orchestrator marks
them as seen. -/
theorem c1_counterexample :
    pFail.gen c0 = GenResult.fail ∧
    already_posted (processLoop pFail db0 0 [c0]).1 "id0" = false ∧
    pSendFail.gen c0 = GenResult.ok "текст на поста" ∧
    pSendFail.sendOk c0 = false ∧
    already_posted (processLoop pSendFail db0 0 [c0]).1 "id0" = false := by
  refine ⟨rfl, by decide, rfl, rfl, by decide⟩

/-- Claim C1, amended: a candidate whose processing raises a recoverable
error (generation ValueError or failed delivery) is NOT recorded as seen —
the walk over the remaining ranked candidates proceeds exactly as if the
failing candidate were absent, with the posted ledger and the
published-count unchanged by it, so the item can be reattempted on a later
run. -/
theorem c1_amended (p : RunParams) (db : DB) (count : Nat) (c : Candidate)
    (rest : List Candidate) (h : recoverableFailure p c) :
    (processLoop p db count (c :: rest)).1.posted =
      (processLoop p db count rest).1.posted ∧
    (processLoop p db count (c :: rest)).2 =
      (processLoop p db count rest).2 := by
  by_cases hq : p.maxPerRun ≤ count
  · rw [processLoop_stop p db count hq (c :: rest),
      processLoop_stop p db count hq rest]
    exact ⟨rfl, rfl⟩
  · rcases h with hfail | ⟨msg, hok, hsend⟩
    · simp only [processLoop, if_neg hq, hfail]
      exact ⟨trivial, trivial⟩
    · simp only [processLoop, if_neg hq, hok, hsend, Bool.false_eq_true,
        if_false]
      by_cases hap : p.autoPost = true
      · simp only [hap, if_true]
        exact ⟨trivial, trivial⟩
      · simp only [hap, if_false]
        exact processLoop_posted_congr p rest _ db count rfl

/-- Witness for C1 amended at the concrete failing generation oracle. -/
theorem c1_amended_witness :
    recoverableFailure pFail c0 ∧
    (processLoop pFail db0 0 [c0]).1.posted =
      (processLoop pFail db0 0 []).1.posted ∧
    (processLoop pFail db0 0 [c0]).2 = (processLoop pFail db0 0 []).2 :=
  ⟨Or.inl rfl, c1_amended pFail db0 0 c0 [] (Or.inl rfl)⟩

/-! ### Entries with an empty derived identifier -/

theorem collectEntry_empty_id (db : DB) (twoDaysAgo src : String)
    (minScore : Int) (e : Entry) (h : extract_item_id e = "") :
    collectEntry db twoDaysAgo src minScore e = none := by
  unfold collectEntry
  simp [h]

theorem mem_collectFeed_item_id_ne (db : DB) (twoDaysAgo src : String)
    (cap : Nat) (minScore : Int) (entries : List Entry) (c : Candidate)
    (h : c ∈ collectFeed db twoDaysAgo src cap minScore entries) :
    ¬ c.item_id = "" := by
  unfold collectFeed at h
  obtain ⟨e, _, hce⟩ := List.mem_filterMap.1 h
  unfold collectEntry at hce
  dsimp only at hce
  by_cases h1 : (¬ extract_item_id e = "" ∧
      already_posted db (extract_item_id e) = false)
  · rw [if_pos h1] at hce
    by_cases h2 : is_duplicate_story db twoDaysAgo e.title (3 / 5) = true
    · rw [if_pos h2] at hce
      cases hce
    · rw [if_neg h2] at hce
      by_cases h3 : minScore ≤ score_entry e.title (pyOr e.summary e.description)
      · rw [if_pos h3, Option.some_inj] at hce
        rw [← hce]
        exact h1.1
      · rw [if_neg h3] at hce
        cases hce
  · rw [if_neg h1] at hce
    cases hce

theorem mem_collectAll_item_id_ne (db : DB) (twoDaysAgo : String) (cap : Nat)
    (minScore : Int) :
    ∀ (feeds : List (String × Option (List Entry))) (c : Candidate),
      c ∈ collectAll db twoDaysAgo cap minScore feeds → ¬ c.item_id = ""
  | [], c, h => by cases h
  | (src, none) :: fs, c, h =>
      mem_collectAll_item_id_ne db twoDaysAgo cap minScore fs c h
  | (src, some es) :: fs, c, h => by
    rcases List.mem_append.1 h with h1 | h2
    · exact mem_collectFeed_item_id_ne db twoDaysAgo src cap minScore es c h1
    · exact mem_collectAll_item_id_ne db twoDaysAgo cap minScore fs c h2

theorem already_posted_mark_posted_ne (db : DB) (i t n x : String)
    (h : ¬ x = i) :
    already_posted (mark_posted db i t n) x = already_posted db x := by
  unfold already_posted mark_posted
  simp only [List.any_append, List.any_filter]
  have h1 : ∀ r : PostedRow,
      (decide (¬ r.item_id = i) && decide (r.item_id = x)) =
        decide (r.item_id = x) := by
    intro r
    by_cases hr : r.item_id = x
    · simp [hr, h]
    · simp [hr]
  simp only [h1]
  have h2 : (List.any [(⟨i, n, normalize t⟩ : PostedRow)]
      fun r => decide (r.item_id = x)) = false := by
    simp
    intro hix
    exact h hix.symm
  rw [h2, Bool.or_false]

theorem processLoop_preserves_unlisted (p : RunParams) (x : String) :
    ∀ (cands : List Candidate) (db : DB) (count : Nat),
      (∀ c ∈ cands, ¬ c.item_id = x) →
      already_posted (processLoop p db count cands).1 x =
        already_posted db x := by
  intro cands
  induction cands with
  | nil => intro db count _; rfl
  | cons c rest ih =>
    intro db count h
    have hc : ¬ c.item_id = x := h c (List.mem_cons_self c rest)
    have hrest : ∀ d ∈ rest, ¬ d.item_id = x :=
      fun d hd => h d (List.mem_cons_of_mem c hd)
    have hmark : already_posted (mark_posted db c.item_id c.title p.now) x =
        already_posted db x :=
      already_posted_mark_posted_ne db c.item_id c.title p.now x
        (fun he => hc he.symm)
    simp only [processLoop]
    split
    · rfl
    · split
      · rw [ih _ count hrest, hmark]
      · exact ih _ count hrest
      · split
        · rw [ih _ (count + 1) hrest,
            already_posted_mark_posted_ne _ c.item_id c.title p.now x
              (fun he => hc he.symm)]
          rfl
        · rw [ih _ count hrest]
          by_cases hap : p.autoPost = true
          · rw [if_pos hap]
          · rw [if_neg hap]
            rfl

/-- Claim C9: a feed entry whose derived stable identifier is empty is
dropped by the collector — it yields no candidate (the none verdict is
reached before the duplicate check and the scorer in the translated
control flow) — and a full run never records the empty identifier in the
posted ledger. -/
theorem c9_empty_id_skipped (db : DB) (twoDaysAgo src : String)
    (minScore : Int) (e : Entry) (h : extract_item_id e = "") :
    collectEntry db twoDaysAgo src minScore e = none ∧
    (∀ (cap : Nat) (entries : List Entry) (c : Candidate),
      c ∈ collectFeed db twoDaysAgo src cap minScore entries →
        ¬ c.item_id = "") ∧
    (∀ (p : RunParams) (db2 : DB) (cap : Nat) (minScore2 : Int)
      (feeds : List (String × Option (List Entry))),
      already_posted (run_rss_once p db2 twoDaysAgo cap minScore2 feeds).1 ""
        = already_posted db2 "") := by
  refine ⟨collectEntry_empty_id db twoDaysAgo src minScore e h,
    fun cap entries c hc =>
      mem_collectFeed_item_id_ne db twoDaysAgo src cap minScore entries c hc,
    fun p db2 cap minScore2 feeds => ?_⟩
  unfold run_rss_once
  apply processLoop_preserves_unlisted
  intro c hc
  have hmem : c ∈ collectAll db2 twoDaysAgo cap minScore2 feeds :=
    (sortDesc_perm _).mem_iff.1 (List.take_subset 20 _ hc)
  exact mem_collectAll_item_id_ne db2 twoDaysAgo cap minScore2 feeds c hmem

/-- Witness for C9 at a concrete entry with no id, no guid and no link. -/
theorem c9_empty_id_skipped_witness :
    extract_item_id ⟨"", "", "", "Заглавие", "описание", ""⟩ = "" ∧
    collectEntry db0 "2024-01-01T00:00:00Z" "Fakti.bg" 1
      ⟨"", "", "", "Заглавие", "описание", ""⟩ = none :=
  ⟨rfl,
    (c9_empty_id_skipped db0 "2024-01-01T00:00:00Z" "Fakti.bg" 1
      ⟨"", "", "", "Заглавие", "описание", ""⟩ rfl).1⟩

end NewsBot
